import Mathlib

/-!
Shallow embedding of the kluctl apply engine (`pkg/deployment/apply_utils.go`),
the variable loader (`pkg/vars/vars_loader.go`) and the command setup/teardown
(`cmd/kluctl/commands/...`), together with theorems settling the spec claims.

Go's mutable `applyUtil` receiver becomes an explicit `ApplyState` threaded
through every function; calls into the Kubernetes client become an environment
of response functions (`K8sEnv`) plus a trace of issued API calls recorded in
the state, so that theorems can talk about which requests were sent and with
which options.
-/

namespace Kluctl

/-- Object Reference: identity quintuple of a managed object
(`types.ObjectRef` in the source). `namespace` is shortened to `ns`. -/
structure ObjectRef where
  group : String
  version : String
  kind : String
  ns : String
  name : String
deriving DecidableEq, Repr

/-- A managed object (`unstructured.Unstructured`).  Only the parts the
claims touch are modelled: its reference, its `resourceVersion`, whether it
carries a hook annotation (`hooksUtil.getHook(o) != nil`), and an abstract
payload standing for the rest of the document. -/
structure Unstructured where
  ref : ObjectRef
  resourceVersion : String
  isHook : Bool
  payload : Nat
deriving DecidableEq, Repr

/-- `uo.CopyUnstructured`: a deep copy; in value semantics the copy is the
same value, the point being that subsequent field updates act on the copy. -/
def CopyUnstructured (x : Unstructured) : Unstructured := x

/-- `SetResourceVersion` on a copy. -/
def SetResourceVersion (x : Unstructured) (rv : String) : Unstructured :=
  { x with resourceVersion := rv }

/-- Classified errors returned by the Kubernetes client, covering the
predicates used in `apply_utils.go`: `meta.IsNoMatchError`,
`errors.IsConflict`, `errors.IsNotFound`, and the cast
`err.(*errors.StatusError)`. A conflict may or may not be a `*StatusError`. -/
inductive K8sErr
  | noMatch
  | conflictStatus
  | conflictOther
  | notFound
  | other (msg : String)
deriving DecidableEq, Repr

/-- `meta.IsNoMatchError`. -/
def K8sErr.isNoMatch : K8sErr → Bool
  | .noMatch => true
  | _ => false

/-- `errors.IsConflict`. -/
def K8sErr.isConflict : K8sErr → Bool
  | .conflictStatus => true
  | .conflictOther => true
  | _ => false

/-- `errors.IsNotFound`. -/
def K8sErr.isNotFound : K8sErr → Bool
  | .notFound => true
  | _ => false

/-- The type assertion `applyError.(*errors.StatusError)`. -/
def K8sErr.isStatusErr : K8sErr → Bool
  | .conflictStatus => true
  | .notFound => true
  | .noMatch => true
  | _ => false

/-- An error recorded in the ledger: either a client error or a message
synthesized with `fmt.Errorf`. -/
inductive Err
  | api (e : K8sErr)
  | msg (s : String)
deriving DecidableEq, Repr

/-- `k8s.PatchOptions`. -/
structure PatchOptions where
  forceDryRun : Bool
  forceApply : Bool := false
deriving DecidableEq, Repr

/-- `k8s.UpdateOptions`. -/
structure UpdateOptions where
  forceDryRun : Bool
deriving DecidableEq, Repr

/-- `k8s.DeleteOptions`. -/
structure DeleteOptions where
  forceDryRun : Bool
deriving DecidableEq, Repr

/-- One API call issued by the engine, with the options it carried. -/
inductive ApiCall
  | patch (x : Unstructured) (forceDryRun forceApply : Bool)
  | update (x : Unstructured) (forceDryRun : Bool)
  | delete (ref : ObjectRef) (forceDryRun : Bool)
  | get (ref : ObjectRef)
deriving DecidableEq, Repr

/-- `applyUtilOptions`. -/
structure applyUtilOptions where
  forceApply : Bool
  replaceOnError : Bool
  forceReplaceOnError : Bool
  dryRun : Bool
  abortOnError : Bool
  hookTimeout : Nat
deriving DecidableEq, Repr

/-- A lost-ownership record returned by the field conflict resolver:
message and field path. -/
structure LostOwnership where
  message : String
  field : String
deriving DecidableEq, Repr

/-- Environment of cluster responses: what each client call would return.
`patchResult`/`updateResult`/`deleteResult` also deliver the API warnings
the client captured.  `resolveConflicts` is `diff.ResolveFieldManagerConflicts`
and `fixForPatch` is `k.FixObjectForPatch`, both external collaborators. -/
structure K8sEnv where
  patchResult : Unstructured → PatchOptions → Except K8sErr Unstructured
  patchWarnings : Unstructured → PatchOptions → List String
  updateResult : Unstructured → UpdateOptions → Except K8sErr Unstructured
  updateWarnings : Unstructured → UpdateOptions → List String
  deleteResult : ObjectRef → DeleteOptions → Except K8sErr Unit
  deleteWarnings : ObjectRef → DeleteOptions → List String
  resolveConflicts : Unstructured → Option Unstructured → K8sErr →
    Except K8sErr (Unstructured × List LostOwnership)
  fixForPatch : Unstructured → Unstructured

/-- The mutable state of `applyUtil` together with the deployment
collection's ledgers, plus a trace of submitted pool tasks (item ids) and of
hook phase runs, used by the scheduler theorems. -/
structure ApplyState where
  appliedObjects : List (ObjectRef × Unstructured)
  appliedHookObjects : List (ObjectRef × Unstructured)
  errors : List (ObjectRef × Err)
  warnings : List (ObjectRef × String)
  apiWarnings : List (ObjectRef × String)
  abortSignal : Bool
  calls : List ApiCall
  submits : List Nat
  hookRuns : List (List String)
deriving DecidableEq, Repr

/-- The empty initial state. -/
def ApplyState.init : ApplyState :=
  ⟨[], [], [], [], [], false, [], [], []⟩

/-- `applyUtil.handleResult`: store the applied object in the hook map or
the regular map, keyed by its reference. -/
def handleResult (s : ApplyState) (appliedObject : Unstructured) (hook : Bool) :
    ApplyState :=
  if hook then
    { s with appliedHookObjects := s.appliedHookObjects ++ [(appliedObject.ref, appliedObject)] }
  else
    { s with appliedObjects := s.appliedObjects ++ [(appliedObject.ref, appliedObject)] }

/-- `applyUtil.handleApiWarnings`. -/
def handleApiWarnings (s : ApplyState) (ref : ObjectRef) (ws : List String) :
    ApplyState :=
  { s with apiWarnings := s.apiWarnings ++ ws.map (fun w => (ref, w)) }

/-- `applyUtil.handleError`: under the mutex, set the abort signal when
`abortOnError` is set, and append to the error ledger. -/
def handleError (o : applyUtilOptions) (s : ApplyState) (ref : ObjectRef)
    (err : Err) : ApplyState :=
  { s with
    abortSignal := if o.abortOnError then true else s.abortSignal
    errors := s.errors ++ [(ref, err)] }

/-- `applyUtil.deleteObject`: delete with `ForceDryRun: a.o.dryRun`,
record API warnings, record an error on failure.  Returns the updated state
and whether the delete succeeded. -/
def deleteObject (env : K8sEnv) (o : applyUtilOptions) (s : ApplyState)
    (ref : ObjectRef) : ApplyState × Bool :=
  let dopts : DeleteOptions := ⟨o.dryRun⟩
  let s := { s with calls := s.calls ++ [ApiCall.delete ref o.dryRun] }
  let s := handleApiWarnings s ref (env.deleteWarnings ref dopts)
  match env.deleteResult ref dopts with
  | .error e => (handleError o s ref (.api e), false)
  | .ok _ => (s, true)

/-- `applyUtil.retryApplyForceReplace`: on `forceReplaceOnError`, delete the
object and retry once — under dry-run by recording the original object,
otherwise by one fresh patch. -/
def retryApplyForceReplace (env : K8sEnv) (o : applyUtilOptions)
    (s : ApplyState) (x : Unstructured) (hook : Bool) (applyError : K8sErr) :
    ApplyState :=
  let ref := x.ref
  if !o.forceReplaceOnError then
    handleError o s ref (.api applyError)
  else
    match deleteObject env o s ref with
    | (s, false) => s
    | (s, true) =>
      if !o.dryRun then
        let popts : PatchOptions := ⟨o.dryRun, false⟩
        let s := { s with calls := s.calls ++ [ApiCall.patch x o.dryRun false] }
        let s := handleApiWarnings s ref (env.patchWarnings x popts)
        match env.patchResult x popts with
        | .error e => handleError o s ref (.api e)
        | .ok r => handleResult s r hook
      else
        handleResult s x hook

/-- `applyUtil.retryApplyWithReplace`: on a non-conflict patch failure with
`replaceOnError` set and a remote object present, copy `x`, set the remote's
`resourceVersion` on the copy — and then call `UpdateObject` **with `x`**,
exactly as the source does (the copy `x2` is computed but never used). -/
def retryApplyWithReplace (env : K8sEnv) (o : applyUtilOptions)
    (s : ApplyState) (x : Unstructured) (hook : Bool)
    (remoteObject : Option Unstructured) (applyError : K8sErr) : ApplyState :=
  let ref := x.ref
  if !o.replaceOnError || remoteObject.isNone then
    handleError o s ref (.api applyError)
  else
    let rv := (remoteObject.getD x).resourceVersion
    let x2 := SetResourceVersion (CopyUnstructured x) rv
    let _ := x2
    let uopts : UpdateOptions := ⟨o.dryRun⟩
    let s := { s with calls := s.calls ++ [ApiCall.update x o.dryRun] }
    let s := handleApiWarnings s ref (env.updateWarnings x uopts)
    match env.updateResult x uopts with
    | .error e => retryApplyForceReplace env o s x hook e
    | .ok r => handleResult s r hook

/-- `applyUtil.retryApplyWithConflicts`: resolve field-ownership conflicts
and re-apply with `ForceApply: true`.  When the remote object is absent the
source records the error but — lacking a `return` — continues into the
resolution and the forced patch; the embedding reproduces that. -/
def retryApplyWithConflicts (env : K8sEnv) (o : applyUtilOptions)
    (s : ApplyState) (x : Unstructured) (hook : Bool)
    (remoteObject : Option Unstructured) (applyError : K8sErr) : ApplyState :=
  let ref := x.ref
  let s := if remoteObject.isNone then handleError o s ref (.api applyError) else s
  let resolved : Except ApplyState (ApplyState × Unstructured) :=
    if !o.forceApply then
      if !applyError.isStatusErr then
        .error (handleError o s ref (.api applyError))
      else
        match env.resolveConflicts x remoteObject applyError with
        | .error e => .error (handleError o s ref (.api e))
        | .ok (x3, lostOwnership) =>
          let ws := lostOwnership.map (fun lo =>
            (ref, lo.message ++ ". Not updating field " ++ lo.field ++ " as we lost field ownership"))
          .ok ({ s with warnings := s.warnings ++ ws }, x3)
    else
      .ok (s, x)
  match resolved with
  | .error s => s
  | .ok (s, x2) =>
    let popts : PatchOptions := ⟨o.dryRun, true⟩
    let s := { s with calls := s.calls ++ [ApiCall.patch x2 o.dryRun true] }
    let s := handleApiWarnings s ref (env.patchWarnings x2 popts)
    match env.patchResult x2 popts with
    | .error e => handleError o s ref (.api e)
    | .ok r => handleResult s r hook

/-- `applyUtil.applyObject`: the per-object state machine — fix the object,
dry-run shortcut for replacements, server-side apply, then dispatch on the
error class (no-match fatal, conflict resolution, replace ladder). -/
def applyObject (env : K8sEnv) (o : applyUtilOptions)
    (remote : ObjectRef → Option Unstructured) (s : ApplyState)
    (x0 : Unstructured) (replaced : Bool) (hook : Bool) : ApplyState :=
  let x := env.fixForPatch x0
  let ref := x0.ref
  let remoteObject := remote ref
  if o.dryRun && replaced && remoteObject.isSome then
    handleResult s x hook
  else
    let popts : PatchOptions := ⟨o.dryRun, false⟩
    let s := { s with calls := s.calls ++ [ApiCall.patch x o.dryRun false] }
    let s := handleApiWarnings s ref (env.patchWarnings x popts)
    match env.patchResult x popts with
    | .ok r => handleResult s r hook
    | .error err =>
      if err.isNoMatch then
        handleError o s ref (.api err)
      else if err.isConflict then
        retryApplyWithConflicts env o s x hook remoteObject err
      else
        retryApplyWithReplace env o s x hook remoteObject err

/-- Result of one `GetSingleObject` poll inside `waitHook`, together with
the validation outcome when the get succeeded (`validation.ValidateObject`). -/
inductive PollStep
  | err (e : K8sErr)
  | ok (ready : Bool) (errs : List String)
deriving DecidableEq, Repr

/-- One iteration of the readiness polling loop as seen from the outside:
the get result, the elapsed time `time.Now().Sub(startTime)` at this
iteration, and the API warnings the client captured. -/
structure Poll where
  step : PollStep
  now : Nat
  warnings : List String
deriving DecidableEq, Repr

/-- How a readiness wait ended.  `pending` means the supplied poll list ran
out while the loop was still waiting (the loop itself is unbounded). -/
inductive WaitOutcome
  | ready
  | disappeared
  | apiErr (e : K8sErr)
  | validationFailed (errs : List String)
  | timedOut
  | pending
deriving DecidableEq, Repr

/-- The polling loop of `applyUtil.waitHook`, iteration by iteration: get the
object; on `NotFound` record "object disappeared" and fail; on any other get
error record it and fail; if validation is `Ready` succeed; if validation has
errors record each and fail; if a nonzero `hookTimeout` has elapsed record
"timed out" and fail; otherwise sleep and poll again. -/
def waitHookLoop (o : applyUtilOptions) (s : ApplyState) (ref : ObjectRef) :
    List Poll → ApplyState × WaitOutcome
  | [] => (s, .pending)
  | p :: rest =>
    let s := { s with calls := s.calls ++ [ApiCall.get ref] }
    let s := handleApiWarnings s ref p.warnings
    match p.step with
    | .err e =>
      if e.isNotFound then
        (handleError o s ref (.msg "object disappeared while waiting for it to become ready"), .disappeared)
      else
        (handleError o s ref (.api e), .apiErr e)
    | .ok rdy errs =>
      if rdy then (s, .ready)
      else if errs ≠ [] then
        (errs.foldl (fun s e => handleError o s ref (.msg e)) s, .validationFailed errs)
      else if o.hookTimeout ≠ 0 ∧ p.now ≥ o.hookTimeout then
        (handleError o s ref (.msg "timed out while waiting for hook"), .timedOut)
      else
        waitHookLoop o s ref rest

/-- `applyUtil.waitHook`: under dry-run the wait is skipped and the hook is
treated as ready; otherwise run the polling loop. -/
def waitHook (o : applyUtilOptions) (s : ApplyState) (ref : ObjectRef)
    (polls : List Poll) : ApplyState × WaitOutcome :=
  if o.dryRun then (s, .ready) else waitHookLoop o s ref polls

/-- The boolean `waitHook` returns in Go: `true` exactly on `ready`
(`pending` never returns). -/
def WaitOutcome.toBool : WaitOutcome → Bool
  | .ready => true
  | _ => false

/-- A Deployment Item (`deploymentItem`): id for the submission trace,
whether `config.Path != nil`, the `checkInclusionForDeploy()` verdict, the
barrier flag (`config.Barrier != nil && *config.Barrier`), and its objects. -/
structure deploymentItem where
  id : Nat
  hasPath : Bool
  includedForDeploy : Bool
  barrier : Bool
  objects : List Unstructured
deriving DecidableEq, Repr

/-- Modelled from the spec: `hooksUtil.runHooks` (its source is outside the
provided files) executes the hooks of the item for the given phases; the
embedding records which phase list was requested, which is all the claims
about phase selection need. -/
def runHooks (s : ApplyState) (phases : List String) : ApplyState :=
  { s with hookRuns := s.hookRuns ++ [phases] }

/-- The `initialDeploy` computation of `applyKustomizeDeployment`, literally:
start `true`, flip to `false` for every object whose reference the Remote
Object Cache resolves — over **all** objects of the item, hooks included. -/
def initialDeployCalc (remote : ObjectRef → Option Unstructured)
    (objects : List Unstructured) : Bool :=
  objects.foldl (fun acc x => if (remote x.ref).isSome then false else acc) true

/-- `applyUtil.applyKustomizeDeployment`: skip items without a path or
excluded by inclusion filters; determine initial-vs-upgrade; run the pre
phases; apply every non-hook object sequentially; run the post phases. -/
def applyKustomizeDeployment (env : K8sEnv) (o : applyUtilOptions)
    (remote : ObjectRef → Option Unstructured) (s : ApplyState)
    (d : deploymentItem) : ApplyState :=
  if !d.hasPath then s
  else if !d.includedForDeploy then s
  else
    let initialDeploy := initialDeployCalc remote d.objects
    let s :=
      if initialDeploy then runHooks s ["pre-deploy-initial", "pre-deploy"]
      else runHooks s ["pre-deploy-upgrade", "pre-deploy"]
    let applyObjects := d.objects.filter (fun x => !x.isHook)
    let s := applyObjects.foldl (fun s x => applyObject env o remote s x false false) s
    if initialDeploy then runHooks s ["post-deploy-initial", "post-deploy"]
    else runHooks s ["post-deploy-upgrade", "post-deploy"]

/-- The scheduling loop of `applyUtil.applyDeployments`: per item, break if
the abort signal is set, drain the pool if the previous item was a barrier,
then submit one task that applies the whole item.  The worker pool is
modelled synchronously: a submitted task is recorded in `submits` and its
effect applied immediately, so `StopWait` drains are no-ops. -/
def applyDeploymentsLoop (env : K8sEnv) (o : applyUtilOptions)
    (remote : ObjectRef → Option Unstructured) :
    ApplyState → Bool → List deploymentItem → ApplyState
  | s, _, [] => s
  | s, prevBarrier, d :: rest =>
    if s.abortSignal then s
    else
      let _ := prevBarrier
      let s := { s with submits := s.submits ++ [d.id] }
      let s := applyKustomizeDeployment env o remote s d
      applyDeploymentsLoop env o remote s d.barrier rest

/-- `applyUtil.applyDeployments`. -/
def applyDeployments (env : K8sEnv) (o : applyUtilOptions)
    (remote : ObjectRef → Option Unstructured) (s : ApplyState)
    (deployments : List deploymentItem) : ApplyState :=
  applyDeploymentsLoop env o remote s false deployments

/-- The call is a mutation carrying the server-side dry-run directive, or is
not a mutation at all. -/
def ApiCall.dryRunOk : ApiCall → Bool
  | .patch _ fdr _ => fdr
  | .update _ fdr => fdr
  | .delete _ fdr => fdr
  | .get _ => true

/-- Every call in the trace is dry-run safe. -/
def callsOk (l : List ApiCall) : Bool := l.all ApiCall.dryRunOk

/-- Teardown actions deferred by `withKluctlProjectFromArgs`
(`cmd/kluctl/commands`). -/
inductive TeardownAction
  | removeTmpDir
  | closeJinja
  | cancelCtx
  | clearGitCache
  | clearOciCache
deriving DecidableEq, Repr

/-- The deferred teardown actions of `withKluctlProjectFromArgs` in
registration order: `os.RemoveAll(tmpDir)`, `j2.Close()`, `cancel()`, then
`gitRp.Clear()`, and — on the line after `NewOciRepoCache` — `gitRp.Clear()`
again (the source never registers `ociRp.Clear()`). -/
def withKluctlProjectFromArgsDefers : List TeardownAction :=
  [.removeTmpDir, .closeJinja, .cancelCtx, .clearGitCache, .clearGitCache]

/-- What one command teardown executes: the deferred actions in reverse
registration order. -/
def teardownRun : List TeardownAction := withKluctlProjectFromArgsDefers.reverse

/-! Concrete fixtures used by counterexamples and witnesses. -/

/-- An environment where every call succeeds and returns the request object. -/
def envOk : K8sEnv where
  patchResult := fun x _ => .ok x
  patchWarnings := fun _ _ => []
  updateResult := fun x _ => .ok x
  updateWarnings := fun _ _ => []
  deleteResult := fun _ _ => .ok ()
  deleteWarnings := fun _ _ => []
  resolveConflicts := fun x _ _ => .ok (x, [])
  fixForPatch := fun x => x

/-- Like `envOk` but server-side apply fails with a non-conflict 422. -/
def envPatch422 : K8sEnv :=
  { envOk with patchResult := fun _ _ => .error (.other "422") }

/-- A ConfigMap reference. -/
def refA : ObjectRef := ⟨"", "v1", "ConfigMap", "ns1", "cm1"⟩

/-- A Job reference used for a hook object. -/
def refB : ObjectRef := ⟨"batch", "v1", "Job", "ns1", "hook1"⟩

/-- The local desired object for `refA`, at resourceVersion 1. -/
def x1 : Unstructured := ⟨refA, "1", false, 0⟩

/-- The remote state of `refA`, at resourceVersion 42. -/
def robj : Unstructured := ⟨refA, "42", false, 1⟩

/-- A hook object at `refB`. -/
def objHook : Unstructured := ⟨refB, "7", true, 2⟩

/-- A non-hook second object at `refB`. -/
def obj2 : Unstructured := ⟨refB, "2", false, 3⟩

/-- Remote Object Cache holding only `refA` ↦ `robj`. -/
def remote1 : ObjectRef → Option Unstructured :=
  fun r => if r = refA then some robj else none

/-- Remote Object Cache holding only the hook reference `refB`. -/
def remoteH : ObjectRef → Option Unstructured :=
  fun r => if r = refB then some objHook else none

/-- All options off. -/
def o0 : applyUtilOptions := ⟨false, false, false, false, false, 0⟩

/-- Only `replaceOnError` set. -/
def oRepl : applyUtilOptions := ⟨false, true, false, false, false, 0⟩

/-- Only `dryRun` set. -/
def oDry : applyUtilOptions := ⟨false, false, false, true, false, 0⟩

/-- Only `abortOnError` set. -/
def oAbort : applyUtilOptions := ⟨false, false, false, false, true, 0⟩

/-- Only `forceReplaceOnError` set. -/
def oFR : applyUtilOptions := ⟨false, false, true, false, false, 0⟩

/-- A two-object, non-barrier Deployment Item with id 0. -/
def d0 : deploymentItem := ⟨0, true, true, false, [x1, obj2]⟩

/-- An item holding one regular object absent from the cluster and one hook
object present on the cluster. -/
def dHook : deploymentItem := ⟨1, true, true, false, [x1, objHook]⟩

/-- A readiness poll whose get fails with a generic (non-NotFound) error. -/
def pollErr : Poll := ⟨.err (.other "boom"), 0, []⟩

/-- Invariant relating a state to the state after one engine step: the abort
signal is never cleared, is unchanged when `abortOnError` is off, the
submission trace is untouched (only the scheduler loop appends to it), and
under dry-run a trace of dry-run-safe calls stays dry-run safe. -/
def Evol (o : applyUtilOptions) (s t : ApplyState) : Prop :=
  (s.abortSignal = true → t.abortSignal = true) ∧
  (o.abortOnError = false → t.abortSignal = s.abortSignal) ∧
  t.submits = s.submits ∧
  (o.dryRun = true → callsOk s.calls = true → callsOk t.calls = true)

/-- `Evol` plus: the step records no hook phase runs (true of the whole
`applyObject` family). -/
def EvolObj (o : applyUtilOptions) (s t : ApplyState) : Prop :=
  Evol o s t ∧ t.hookRuns = s.hookRuns

/-- Modelled from the spec (amended form): the readiness wait is decided by
the first decisive poll — a get error (`NotFound` counting as
"disappeared"), validation `Ready`, a non-empty validation error list, or a
nonzero elapsed timeout; otherwise the wait continues. -/
def firstDecisive (timeout : Nat) : List Poll → WaitOutcome
  | [] => .pending
  | p :: rest =>
    match p.step with
    | .err e => if e.isNotFound then .disappeared else .apiErr e
    | .ok rdy errs =>
      if rdy then .ready
      else if errs ≠ [] then .validationFailed errs
      else if timeout ≠ 0 ∧ p.now ≥ timeout then .timedOut
      else firstDecisive timeout rest

end Kluctl

namespace KluctlVars

/-- `types.VarsSource`: each alternative source kind is an optional field;
their contents are abstracted (the loader claims only concern which field is
set and with what value after rendering). -/
structure VarsSource where
  ignoreMissing : Option Bool
  values : Option Nat
  file : Option String
  git : Option Nat
  clusterConfigMap : Option Nat
  clusterSecret : Option Nat
  systemEnvVars : Option Nat
  http : Option Nat
  awsSecretsManager : Option Nat
  vault : Option Nat
deriving DecidableEq, Repr

/-- Which loader `LoadVars` dispatches to, with the (rendered) data it
reads; mirrors the if/else chain of the source. -/
inductive VarsDispatch
  | values (v : Nat)
  | file (path : String) (ignoreMissing : Bool)
  | git (g : Nat) (ignoreMissing : Bool)
  | clusterConfigMap (c : Nat) (ignoreMissing : Bool)
  | clusterSecret (c : Nat) (ignoreMissing : Bool)
  | systemEnvVars (src : VarsSource) (ignoreMissing : Bool)
  | http (src : VarsSource) (ignoreMissing : Bool)
  | awsSecretsManager (src : VarsSource) (ignoreMissing : Bool)
  | vault (src : VarsSource) (ignoreMissing : Bool)
  | invalid
deriving DecidableEq, Repr

/-- The if/else dispatch chain at the end of `LoadVars`, reading the rendered
copy `source` (the branches taking `&source` receive the whole copy). -/
def selectVarsSource (src : VarsSource) (im : Bool) : VarsDispatch :=
  match src.values with
  | some v => .values v
  | none =>
    match src.file with
    | some f => .file f im
    | none =>
      match src.git with
      | some g => .git g im
      | none =>
        match src.clusterConfigMap with
        | some c => .clusterConfigMap c im
        | none =>
          match src.clusterSecret with
          | some c => .clusterSecret c im
          | none =>
            match src.systemEnvVars with
            | some _ => .systemEnvVars src im
            | none =>
              match src.http with
              | some _ => .http src im
              | none =>
                match src.awsSecretsManager with
                | some _ => .awsSecretsManager src im
                | none =>
                  match src.vault with
                  | some _ => .vault src im
                  | none => .invalid

/-- The two memory locations `LoadVars` can reach: the caller's object
behind the `sourceIn` pointer, and the local variable `source` (unset until
the deep copy writes it). -/
structure VarsStore where
  sourceIn : VarsSource
  source : Option VarsSource
deriving DecidableEq, Repr

/-- `VarsLoader.LoadVars` as a transformer on the two-cell store:
`utils.DeepCopy(&source, sourceIn)` reads the caller cell and writes the
local cell; `varsCtx.Vars.ToMap()` may fail; `RenderStruct(&source)` rewrites
the local cell only; the dispatch chain reads the rendered local cell.
`deepCopyErr`, `toMapRes` and `renderStruct` stand for the external
collaborators.  The returned store is the memory after the call, on every
path including the error returns. -/
def LoadVars (deepCopyErr : Option String) (toMapRes : Except String Unit)
    (renderStruct : VarsSource → Except String VarsSource)
    (st : VarsStore) : VarsStore × Except String VarsDispatch :=
  match deepCopyErr with
  | some e => (st, .error e)
  | none =>
    let st := { st with source := some st.sourceIn }
    match toMapRes with
    | .error e => (st, .error e)
    | .ok _ =>
      match renderStruct (st.source.getD st.sourceIn) with
      | .error e => (st, .error e)
      | .ok rendered =>
        let st := { st with source := some rendered }
        let src := st.source.getD st.sourceIn
        let im := src.ignoreMissing.getD false
        (st, .ok (selectVarsSource src im))

end KluctlVars

namespace Kluctl

variable {o : applyUtilOptions} {s t u : ApplyState} {E : K8sEnv}
variable {m : ObjectRef → Option Unstructured}

theorem callsOk_append (a b : List ApiCall) :
    callsOk (a ++ b) = (callsOk a && callsOk b) := by
  simp [callsOk, List.all_append]

theorem evolObj_refl : EvolObj o s s :=
  ⟨⟨fun h => h, fun _ => rfl, rfl, fun _ h => h⟩, rfl⟩

theorem evolObj_trans (h1 : EvolObj o s t) (h2 : EvolObj o t u) : EvolObj o s u := by
  obtain ⟨⟨a1, b1, c1, d1⟩, e1⟩ := h1
  obtain ⟨⟨a2, b2, c2, d2⟩, e2⟩ := h2
  refine ⟨⟨fun h => a2 (a1 h), fun h => (b2 h).trans (b1 h), c2.trans c1,
    fun h hc => d2 h (d1 h hc)⟩, e2.trans e1⟩

theorem evolObj_addCall (c : ApiCall) (hc : o.dryRun = true → c.dryRunOk = true) :
    EvolObj o s { s with calls := s.calls ++ [c] } := by
  refine ⟨⟨fun h => h, fun _ => rfl, rfl, fun hd hok => ?_⟩, rfl⟩
  simp only [callsOk_append]
  simp only [callsOk, List.all_cons, List.all_nil, Bool.and_true] at *
  exact Bool.and_eq_true_iff.mpr ⟨hok, hc hd⟩

theorem evolObj_handleResult {x : Unstructured} {b : Bool} :
    EvolObj o s (handleResult s x b) := by
  cases b <;> simp [handleResult] <;> exact evolObj_refl

theorem evolObj_handleApiWarnings {r : ObjectRef} {w : List String} :
    EvolObj o s (handleApiWarnings s r w) :=
  ⟨⟨fun h => h, fun _ => rfl, rfl, fun _ h => h⟩, rfl⟩

theorem evolObj_handleError {r : ObjectRef} {e : Err} :
    EvolObj o s (handleError o s r e) := by
  refine ⟨⟨fun h => ?_, fun h => ?_, rfl, fun _ h => h⟩, rfl⟩
  · simp [handleError, h]
  · simp [handleError, h]

theorem evolObj_deleteObject {r : ObjectRef} :
    EvolObj o s (deleteObject E o s r).1 := by
  simp only [deleteObject]
  split
  · exact evolObj_trans (evolObj_trans
      (evolObj_addCall _ (fun h => by simp [ApiCall.dryRunOk, h]))
      evolObj_handleApiWarnings) evolObj_handleError
  · exact evolObj_trans
      (evolObj_addCall _ (fun h => by simp [ApiCall.dryRunOk, h]))
      evolObj_handleApiWarnings

theorem evolObj_retryApplyForceReplace {x : Unstructured} {b : Bool} {e : K8sErr} :
    EvolObj o s (retryApplyForceReplace E o s x b e) := by
  simp only [retryApplyForceReplace]
  split
  · exact evolObj_handleError
  · split
    · rename_i heq
      have hdel : EvolObj o s (deleteObject E o s x.ref).1 := evolObj_deleteObject
      rw [heq] at hdel
      exact hdel
    · rename_i s' heq
      have hdel : EvolObj o s (deleteObject E o s x.ref).1 := evolObj_deleteObject
      rw [heq] at hdel
      refine evolObj_trans hdel ?_
      split
      · split
        · exact evolObj_trans (evolObj_trans
            (evolObj_addCall _ (fun h => by simp [ApiCall.dryRunOk, h]))
            evolObj_handleApiWarnings) evolObj_handleError
        · exact evolObj_trans (evolObj_trans
            (evolObj_addCall _ (fun h => by simp [ApiCall.dryRunOk, h]))
            evolObj_handleApiWarnings) evolObj_handleResult
      · exact evolObj_handleResult

theorem evolObj_retryApplyWithReplace {x : Unstructured} {b : Bool}
    {ro : Option Unstructured} {e : K8sErr} :
    EvolObj o s (retryApplyWithReplace E o s x b ro e) := by
  simp only [retryApplyWithReplace]
  split
  · exact evolObj_handleError
  · have base : EvolObj o s (handleApiWarnings
      { s with calls := s.calls ++ [ApiCall.update x o.dryRun] } x.ref
      (E.updateWarnings x ⟨o.dryRun⟩)) :=
      evolObj_trans (evolObj_addCall _ (fun h => by simp [ApiCall.dryRunOk, h]))
        evolObj_handleApiWarnings
    split
    · exact evolObj_trans base evolObj_retryApplyForceReplace
    · exact evolObj_trans base evolObj_handleResult

theorem evolObj_retryApplyWithConflicts {x : Unstructured} {b : Bool}
    {ro : Option Unstructured} {e : K8sErr} :
    EvolObj o s (retryApplyWithConflicts E o s x b ro e) := by
  simp only [retryApplyWithConflicts]
  have base : EvolObj o s (if ro.isNone then handleError o s x.ref (.api e) else s) := by
    split
    · exact evolObj_handleError
    · exact evolObj_refl
  refine ?_
  split
  · rename_i s' heq
    -- the resolution step ended in an error state s'
    have : EvolObj o (if ro.isNone then handleError o s x.ref (.api e) else s) s' := by
      revert heq
      split
      · split
        · intro heq
          cases heq
          exact evolObj_handleError
        · split
          · intro heq
            cases heq
            exact evolObj_handleError
          · intro heq
            cases heq
      · intro heq
        cases heq
    exact evolObj_trans base this
  · rename_i s' x2 heq
    have hmid : EvolObj o (if ro.isNone then handleError o s x.ref (.api e) else s) s' := by
      revert heq
      split
      · split
        · intro heq
          cases heq
        · split
          · intro heq
            cases heq
          · intro heq
            cases heq
            exact ⟨⟨fun h => h, fun _ => rfl, rfl, fun _ h => h⟩, rfl⟩
      · intro heq
        cases heq
        exact evolObj_refl
    refine evolObj_trans base (evolObj_trans hmid ?_)
    have base2 : EvolObj o s' (handleApiWarnings
        { s' with calls := s'.calls ++ [ApiCall.patch x2 o.dryRun true] } x.ref
        (E.patchWarnings x2 ⟨o.dryRun, true⟩)) :=
      evolObj_trans (evolObj_addCall _ (fun h => by simp [ApiCall.dryRunOk, h]))
        evolObj_handleApiWarnings
    split
    all_goals first
      | exact evolObj_trans base2 evolObj_handleError
      | exact evolObj_trans base2 evolObj_handleResult

theorem evolObj_applyObject {x : Unstructured} {rp b : Bool} :
    EvolObj o s (applyObject E o m s x rp b) := by
  simp only [applyObject]
  split
  · exact evolObj_handleResult
  · have base : EvolObj o s (handleApiWarnings
        { s with calls := s.calls ++ [ApiCall.patch (E.fixForPatch x) o.dryRun false] }
        x.ref (E.patchWarnings (E.fixForPatch x) ⟨o.dryRun, false⟩)) :=
      evolObj_trans (evolObj_addCall _ (fun h => by simp [ApiCall.dryRunOk, h]))
        evolObj_handleApiWarnings
    split
    · exact evolObj_trans base evolObj_handleResult
    · split
      · exact evolObj_trans base evolObj_handleError
      · split
        · exact evolObj_trans base evolObj_retryApplyWithConflicts
        · exact evolObj_trans base evolObj_retryApplyWithReplace

theorem evolObj_foldApply (l : List Unstructured) :
    ∀ s : ApplyState,
    EvolObj o s (l.foldl (fun s x => applyObject E o m s x false false) s) := by
  induction l with
  | nil => intro s; exact evolObj_refl
  | cons x xs ih =>
    intro s
    exact evolObj_trans evolObj_applyObject (ih _)

theorem evol_runHooks {p : List String} : Evol o s (runHooks s p) :=
  ⟨fun h => h, fun _ => rfl, rfl, fun _ h => h⟩

theorem evol_trans (h1 : Evol o s t) (h2 : Evol o t u) : Evol o s u := by
  obtain ⟨a1, b1, c1, d1⟩ := h1
  obtain ⟨a2, b2, c2, d2⟩ := h2
  exact ⟨fun h => a2 (a1 h), fun h => (b2 h).trans (b1 h), c2.trans c1,
    fun h hc => d2 h (d1 h hc)⟩

theorem evol_applyKustomizeDeployment {d : deploymentItem} :
    Evol o s (applyKustomizeDeployment E o m s d) := by
  simp only [applyKustomizeDeployment]
  split
  · exact ⟨fun h => h, fun _ => rfl, rfl, fun _ h => h⟩
  · split
    · exact ⟨fun h => h, fun _ => rfl, rfl, fun _ h => h⟩
    · split
      · exact evol_trans (evol_trans evol_runHooks
          (evolObj_foldApply _ _).1) evol_runHooks
      · exact evol_trans (evol_trans evol_runHooks
          (evolObj_foldApply _ _).1) evol_runHooks

theorem applyDeploymentsLoop_stop {pb : Bool} {l : List deploymentItem}
    (h : s.abortSignal = true) :
    applyDeploymentsLoop E o m s pb l = s := by
  cases l with
  | nil => rfl
  | cons d rest => simp [applyDeploymentsLoop, h]

theorem applyDeploymentsLoop_submits (ha : o.abortOnError = false) :
    ∀ (l : List deploymentItem) (s : ApplyState) (pb : Bool),
    s.abortSignal = false →
    (applyDeploymentsLoop E o m s pb l).submits = s.submits ++ l.map deploymentItem.id := by
  intro l
  induction l with
  | nil => intro s pb _; simp [applyDeploymentsLoop]
  | cons d rest ih =>
    intro s pb h0
    have hev : Evol o { s with submits := s.submits ++ [d.id] }
        (applyKustomizeDeployment E o m { s with submits := s.submits ++ [d.id] } d) :=
      evol_applyKustomizeDeployment
    have hsig : (applyKustomizeDeployment E o m
        { s with submits := s.submits ++ [d.id] } d).abortSignal = false := by
      rw [hev.2.1 ha]; exact h0
    simp only [applyDeploymentsLoop]
    split
    · rename_i hx
      rw [h0] at hx
      exact absurd hx (by simp)
    · rw [ih _ _ hsig, hev.2.2.1]
      simp

theorem applyDeploymentsLoop_callsOk (hd : o.dryRun = true) :
    ∀ (l : List deploymentItem) (s : ApplyState) (pb : Bool),
    callsOk s.calls = true →
    callsOk (applyDeploymentsLoop E o m s pb l).calls = true := by
  intro l
  induction l with
  | nil => intro s pb h; simpa [applyDeploymentsLoop] using h
  | cons d rest ih =>
    intro s pb h
    simp only [applyDeploymentsLoop]
    split
    · exact h
    · have hev : Evol o { s with submits := s.submits ++ [d.id] }
          (applyKustomizeDeployment E o m { s with submits := s.submits ++ [d.id] } d) :=
        evol_applyKustomizeDeployment
      exact ih _ _ (hev.2.2.2 hd h)

theorem foldl_and_all :
    ∀ (l : List Unstructured) (acc : Bool),
    List.foldl (fun a x => (m x.ref).isNone && a) acc l =
      (acc && l.all fun x => (m x.ref).isNone) := by
  intro l
  induction l with
  | nil => intro acc; simp
  | cons x xs ih =>
    intro acc
    simp only [List.foldl_cons, List.all_cons]
    rw [ih]
    cases acc <;> cases hx : (m x.ref).isNone <;> simp

theorem initialDeployCalc_eq_all (l : List Unstructured) :
    initialDeployCalc m l = l.all (fun x => (m x.ref).isNone) := by
  simp [initialDeployCalc, foldl_and_all]

theorem foldApply_hookRuns (l : List Unstructured) :
    ∀ s : ApplyState,
    (l.foldl (fun s x => applyObject E o m s x false false) s).hookRuns = s.hookRuns :=
  fun s => (evolObj_foldApply l s).2

theorem applyKustomizeDeployment_hookRuns {d : deploymentItem}
    (h1 : d.hasPath = true) (h2 : d.includedForDeploy = true) :
    (applyKustomizeDeployment E o m s d).hookRuns =
      s.hookRuns ++
        [if initialDeployCalc m d.objects then ["pre-deploy-initial", "pre-deploy"]
         else ["pre-deploy-upgrade", "pre-deploy"]] ++
        [if initialDeployCalc m d.objects then ["post-deploy-initial", "post-deploy"]
         else ["post-deploy-upgrade", "post-deploy"]] := by
  simp only [applyKustomizeDeployment, h1, h2]
  cases hini : initialDeployCalc m d.objects <;>
    simp [hini, runHooks, foldApply_hookRuns]

theorem foldl_handleError_errors {r : ObjectRef} :
    ∀ (l : List String) (s : ApplyState),
    (l.foldl (fun s e => handleError o s r (.msg e)) s).errors.length =
      s.errors.length + l.length := by
  intro l
  induction l with
  | nil => intro s; simp
  | cons e es ih =>
    intro s
    simp only [List.foldl_cons]
    rw [ih]
    simp [handleError]
    omega

theorem waitHookLoop_outcome {r : ObjectRef} :
    ∀ (l : List Poll) (s : ApplyState),
    (waitHookLoop o s r l).2 = firstDecisive o.hookTimeout l := by
  intro l
  induction l with
  | nil => intro s; rfl
  | cons p rest ih =>
    intro s
    simp only [waitHookLoop, firstDecisive]
    split
    · split <;> rfl
    · split
      · rfl
      · split
        · rfl
        · split
          · rfl
          · exact ih _

theorem firstDecisive_no_timeout :
    ∀ (l : List Poll), firstDecisive 0 l ≠ .timedOut := by
  intro l
  induction l with
  | nil => simp [firstDecisive]
  | cons p rest ih =>
    simp only [firstDecisive]
    split
    · split <;> simp
    · split
      · simp
      · split
        · simp
        · split
          · rename_i hcond
            exact absurd rfl hcond.1
          · exact ih

theorem waitHookLoop_fail_records {r : ObjectRef} :
    ∀ (l : List Poll) (s : ApplyState),
    (waitHookLoop o s r l).2 ≠ .ready →
    (waitHookLoop o s r l).2 ≠ .pending →
    s.errors.length < (waitHookLoop o s r l).1.errors.length := by
  intro l
  induction l with
  | nil => intro s _ hp; simp [waitHookLoop] at hp
  | cons p rest ih =>
    intro s hr hp
    cases hstep : p.step with
    | err e =>
      by_cases hnf : e.isNotFound = true
      · simp [waitHookLoop, hstep, hnf, handleError, handleApiWarnings]
      · simp [waitHookLoop, hstep, hnf, handleError, handleApiWarnings]
    | ok rdy errs =>
      by_cases hrdy : rdy = true
      · exfalso
        apply hr
        simp [waitHookLoop, hstep, hrdy]
      · by_cases herrs : errs = []
        · by_cases htime : o.hookTimeout ≠ 0 ∧ p.now ≥ o.hookTimeout
          · simp [waitHookLoop, hstep, hrdy, herrs, htime, handleError, handleApiWarnings]
          · have hred : waitHookLoop o s r (p :: rest) = waitHookLoop o
                (handleApiWarnings { s with calls := s.calls ++ [ApiCall.get r] } r
                  p.warnings) r rest := by
              simp [waitHookLoop, hstep, hrdy, herrs, htime]
            rw [hred] at hr hp ⊢
            exact ih _ hr hp
        · have hred : waitHookLoop o s r (p :: rest) =
              (errs.foldl (fun s e => handleError o s r (.msg e))
                (handleApiWarnings { s with calls := s.calls ++ [ApiCall.get r] } r
                  p.warnings), .validationFailed errs) := by
            simp [waitHookLoop, hstep, hrdy, herrs]
          rw [hred]
          rw [foldl_handleError_errors]
          have hpos : 0 < errs.length := List.length_pos.mpr herrs
          have hbase : (handleApiWarnings { s with calls := s.calls ++ [ApiCall.get r] }
              r p.warnings).errors = s.errors := rfl
          rw [hbase]
          omega

/-- C1: the replace retry of a failed apply (non-conflict error,
`replaceOnError` set, remote present) issues an UPDATE whose request object
is `x` itself, still carrying the local resourceVersion "1" — not the copy
`x2` that holds the remote resourceVersion "42".  Evaluates the code at the
failing input; the spec says the update preserves the remote
`resourceVersion`. -/
theorem replace_update_sends_local_resource_version :
    (applyObject envPatch422 oRepl remote1 ApplyState.init x1 false false).calls =
      [ApiCall.patch x1 false false, ApiCall.update x1 false] ∧
    x1.resourceVersion = "1" ∧
    remote1 x1.ref = some robj ∧
    robj.resourceVersion = "42" :=
  ⟨rfl, rfl, rfl, rfl⟩

/-- C2: on a field-ownership conflict with no remote object cached, the
engine records the conflict as an error for the reference — and then, the
early return being missing, still resolves the conflict and issues a forced
patch, even recording an applied result.  The claim (and the spec) say no
further apply attempt happens. -/
theorem conflict_without_remote_still_patches :
    (retryApplyWithConflicts envOk o0 ApplyState.init x1 false none .conflictStatus).errors =
      [(refA, Err.api .conflictStatus)] ∧
    (retryApplyWithConflicts envOk o0 ApplyState.init x1 false none .conflictStatus).calls =
      [ApiCall.patch x1 false true] ∧
    (retryApplyWithConflicts envOk o0 ApplyState.init x1 false none .conflictStatus).appliedObjects =
      [(refA, x1)] :=
  ⟨rfl, rfl, rfl⟩

/-- C3 counterexample: a Deployment Item with two non-hook objects is
submitted to the worker pool as a single task (one submission, the item's
id), not as one independent task per object as the claim states. -/
theorem item_objects_not_submitted_individually :
    (applyDeployments envOk o0 (fun _ => none) ApplyState.init [d0]).submits = [0] ∧
    (d0.objects.filter (fun x => !x.isHook)).length = 2 :=
  ⟨rfl, rfl⟩

/-- C3 amended: the scheduler submits exactly one worker-pool task per
Deployment Item (so distinct items, not distinct objects of one item, may
be applied in parallel); the item's non-hook objects are applied
sequentially inside that one task. -/
theorem scheduler_submits_one_task_per_item
    (E : K8sEnv) (o : applyUtilOptions) (m : ObjectRef → Option Unstructured)
    (s : ApplyState) (l : List deploymentItem)
    (ha : o.abortOnError = false) (h0 : s.abortSignal = false) :
    (applyDeployments E o m s l).submits = s.submits ++ l.map deploymentItem.id :=
  applyDeploymentsLoop_submits ha l s false h0

/-- Witness for C3's amended theorem at a concrete collection. -/
theorem scheduler_submits_one_task_per_item_witness :
    (applyDeployments envOk o0 (fun _ => none) ApplyState.init [d0, dHook]).submits =
      [0, 1] := by
  have h := scheduler_submits_one_task_per_item envOk o0 (fun _ => none)
    ApplyState.init [d0, dHook] rfl rfl
  simpa using h

/-- C4 counterexample: an item whose only regular object is absent from the
Remote Object Cache but whose hook object is present runs the upgrade hook
phases — the hook object did flip the initial-deploy classification, while
the claim says hooks play no role. -/
theorem hook_remote_flips_initial_deploy :
    (applyKustomizeDeployment envOk o0 remoteH ApplyState.init dHook).hookRuns =
      [["pre-deploy-upgrade", "pre-deploy"], ["post-deploy-upgrade", "post-deploy"]] ∧
    (dHook.objects.filter (fun x => !x.isHook)).all
      (fun x => (remoteH x.ref).isNone) = true :=
  ⟨rfl, rfl⟩

/-- C4 amended: an item is classified as an initial deploy iff the Remote
Object Cache returns none for **every** object of the item, hook objects
included, and that classification selects the pre/post hook phases run. -/
theorem initial_deploy_counts_all_objects
    (E : K8sEnv) (o : applyUtilOptions) (m : ObjectRef → Option Unstructured)
    (s : ApplyState) (d : deploymentItem)
    (h1 : d.hasPath = true) (h2 : d.includedForDeploy = true) :
    initialDeployCalc m d.objects = d.objects.all (fun x => (m x.ref).isNone) ∧
    (applyKustomizeDeployment E o m s d).hookRuns =
      s.hookRuns ++
        [if initialDeployCalc m d.objects then ["pre-deploy-initial", "pre-deploy"]
         else ["pre-deploy-upgrade", "pre-deploy"]] ++
        [if initialDeployCalc m d.objects then ["post-deploy-initial", "post-deploy"]
         else ["post-deploy-upgrade", "post-deploy"]] :=
  ⟨initialDeployCalc_eq_all _, applyKustomizeDeployment_hookRuns h1 h2⟩

/-- Witness for C4's amended theorem at a concrete item. -/
theorem initial_deploy_counts_all_objects_witness :
    (applyKustomizeDeployment envOk o0 remoteH ApplyState.init dHook).hookRuns =
      [["pre-deploy-upgrade", "pre-deploy"], ["post-deploy-upgrade", "post-deploy"]] := by
  have h := (initial_deploy_counts_all_objects envOk o0 remoteH
    ApplyState.init dHook rfl rfl).2
  rw [h]
  rfl

/-- C5: one command teardown runs the deferred cache clears of
`withKluctlProjectFromArgs`; the git repo cache is cleared twice and the OCI
repo cache never, contradicting the claim that each is cleared exactly
once. -/
theorem teardown_clears_git_twice_oci_never :
    teardownRun.count TeardownAction.clearGitCache = 2 ∧
    teardownRun.count TeardownAction.clearOciCache = 0 := by
  decide

/-- C6: with `dryRun` set, every API call the engine issues — through
`applyObject` with its whole retry/replace ladder, through `deleteObject`,
and through a full `applyDeployments` run — carries the server-side dry-run
directive (`ForceDryRun`). -/
theorem dry_run_all_calls_carry_directive
    (E : K8sEnv) (o : applyUtilOptions) (m : ObjectRef → Option Unstructured)
    (s : ApplyState) (x : Unstructured) (rp b : Bool) (r : ObjectRef)
    (l : List deploymentItem)
    (h1 : o.dryRun = true) (h2 : callsOk s.calls = true) :
    callsOk (applyObject E o m s x rp b).calls = true ∧
    callsOk (deleteObject E o s r).1.calls = true ∧
    callsOk (applyDeployments E o m s l).calls = true :=
  ⟨evolObj_applyObject.1.2.2.2 h1 h2, evolObj_deleteObject.1.2.2.2 h1 h2,
    applyDeploymentsLoop_callsOk h1 l s false h2⟩

/-- Witness for C6 at a concrete dry-run configuration. -/
theorem dry_run_all_calls_carry_directive_witness :
    callsOk (applyObject envOk oDry (fun _ => none) ApplyState.init x1 false false).calls =
      true :=
  (dry_run_all_calls_carry_directive envOk oDry (fun _ => none) ApplyState.init
    x1 false false refA [] rfl rfl).1

/-- C7: recording an error with `abortOnError` set flips the Abort Signal in
the same guarded state update; once the signal is set the scheduling loop
dispatches nothing further (it stops at the next check, leaving the state —
and in particular the submission trace — untouched), and a worker that runs
to completion never clears the signal. -/
theorem abort_signal_stops_scheduling
    (E : K8sEnv) (o : applyUtilOptions) (m : ObjectRef → Option Unstructured)
    (s : ApplyState) (r : ObjectRef) (e : Err) (pb : Bool)
    (l : List deploymentItem) (d : deploymentItem) :
    (o.abortOnError = true → (handleError o s r e).abortSignal = true) ∧
    (s.abortSignal = true → applyDeploymentsLoop E o m s pb l = s) ∧
    (s.abortSignal = true → (applyKustomizeDeployment E o m s d).abortSignal = true) := by
  refine ⟨fun h => ?_, fun h => applyDeploymentsLoop_stop h,
    fun h => evol_applyKustomizeDeployment.1 h⟩
  simp [handleError, h]

/-- Witness for C7 at concrete inputs. -/
theorem abort_signal_stops_scheduling_witness :
    (handleError oAbort ApplyState.init refA (Err.msg "x")).abortSignal = true ∧
    applyDeploymentsLoop envOk o0 (fun _ => none)
      { ApplyState.init with abortSignal := true } false [d0] =
      { ApplyState.init with abortSignal := true } :=
  ⟨(abort_signal_stops_scheduling envOk oAbort (fun _ => none) ApplyState.init
      refA (Err.msg "x") false [] d0).1 rfl,
    (abort_signal_stops_scheduling envOk o0 (fun _ => none)
      { ApplyState.init with abortSignal := true } refA (Err.msg "x") false [d0] d0).2.1 rfl⟩

/-- C8 counterexample: a readiness poll whose get fails with a generic
non-NotFound API error makes the wait fail with a recorded error, although
the claim's enumeration of failure causes (validation errors, NotFound,
timeout) does not include this case; here `hook_timeout` is zero and
dry-run is off. -/
theorem wait_hook_fails_on_generic_get_error :
    (waitHook o0 ApplyState.init refA [pollErr]).2 = .apiErr (.other "boom") ∧
    (waitHook o0 ApplyState.init refA [pollErr]).1.errors =
      [(refA, Err.api (.other "boom"))] ∧
    o0.dryRun = false ∧ o0.hookTimeout = 0 :=
  ⟨rfl, rfl, rfl, rfl⟩

/-- C8 amended: dry-run skips the wait and reports ready; a zero
`hookTimeout` never produces a timeout failure; otherwise the wait is
decided by the first decisive poll — ready on validation `Ready`, failure
exactly on validation errors, NotFound, any other get error, or timeout
elapse — and every failure records at least one error for the reference. -/
theorem wait_hook_characterization
    (o : applyUtilOptions) (s : ApplyState) (r : ObjectRef) (l : List Poll) :
    (o.dryRun = true → waitHook o s r l = (s, .ready)) ∧
    (o.hookTimeout = 0 → (waitHook o s r l).2 ≠ .timedOut) ∧
    (o.dryRun = false → (waitHook o s r l).2 = firstDecisive o.hookTimeout l) ∧
    (o.dryRun = false → (waitHook o s r l).2 ≠ .ready → (waitHook o s r l).2 ≠ .pending →
      s.errors.length < (waitHook o s r l).1.errors.length) := by
  refine ⟨fun h => by simp [waitHook, h], fun h => ?_, fun h => ?_, fun h hr hp => ?_⟩
  · by_cases hd : o.dryRun = true
    · simp [waitHook, hd]
    · simp only [waitHook, if_neg hd]
      rw [waitHookLoop_outcome, h]
      exact firstDecisive_no_timeout l
  · simp only [waitHook, h, Bool.false_eq_true, if_false]
    exact waitHookLoop_outcome l s
  · simp only [waitHook, h, Bool.false_eq_true, if_false] at hr hp ⊢
    exact waitHookLoop_fail_records l s hr hp

/-- Witness for C8's amended theorem at concrete inputs. -/
theorem wait_hook_characterization_witness :
    waitHook oDry ApplyState.init refA [] = (ApplyState.init, .ready) ∧
    (waitHook o0 ApplyState.init refA [pollErr]).2 = firstDecisive 0 [pollErr] :=
  ⟨(wait_hook_characterization oDry ApplyState.init refA []).1 rfl,
    (wait_hook_characterization o0 ApplyState.init refA [pollErr]).2.2.1 rfl⟩

/-- C9: with `forceReplaceOnError` set, after a successful delete exactly
one retry happens — under dry-run the original input object is recorded as
the result with no further API call, otherwise exactly one fresh patch is
issued; if that patch fails the error is recorded for the reference and
nothing further is attempted (the call trace is exactly delete then at most
one patch). -/
theorem force_replace_single_retry
    (E : K8sEnv) (o : applyUtilOptions) (s : ApplyState) (x : Unstructured)
    (b : Bool) (e : K8sErr)
    (h1 : o.forceReplaceOnError = true)
    (h2 : E.deleteResult x.ref ⟨o.dryRun⟩ = .ok ()) :
    (retryApplyForceReplace E o s x b e).calls =
      s.calls ++ [ApiCall.delete x.ref o.dryRun] ++
        (if o.dryRun then [] else [ApiCall.patch x o.dryRun false]) ∧
    (o.dryRun = true → b = false →
      (retryApplyForceReplace E o s x b e).appliedObjects =
        s.appliedObjects ++ [(x.ref, x)] ∧
      (retryApplyForceReplace E o s x b e).errors = s.errors) ∧
    (o.dryRun = false → ∀ e2, E.patchResult x ⟨o.dryRun, false⟩ = .error e2 →
      (retryApplyForceReplace E o s x b e).errors = s.errors ++ [(x.ref, .api e2)] ∧
      (retryApplyForceReplace E o s x b e).appliedObjects = s.appliedObjects ∧
      (retryApplyForceReplace E o s x b e).appliedHookObjects = s.appliedHookObjects) := by
  cases hdr : o.dryRun with
  | true =>
    rw [hdr] at h2
    refine ⟨?_, fun _ hb => ?_, fun hcontra => absurd hcontra (by simp)⟩
    · simp [retryApplyForceReplace, h1, deleteObject, h2, hdr,
        handleApiWarnings, handleResult]
      cases b <;> simp [handleResult]
    · subst hb
      simp [retryApplyForceReplace, h1, deleteObject, h2, hdr,
        handleApiWarnings, handleResult]
  | false =>
    rw [hdr] at h2
    cases hres : E.patchResult x ⟨false, false⟩ with
    | error e2 =>
      refine ⟨?_, fun hcontra _ => absurd hcontra (by simp), fun _ e3 he3 => ?_⟩
      · simp [retryApplyForceReplace, h1, deleteObject, h2, hdr, hres,
          handleApiWarnings, handleError]
      · injection he3 with he4
        subst he4
        simp [retryApplyForceReplace, h1, deleteObject, h2, hdr, hres,
          handleApiWarnings, handleError]
    | ok rr =>
      refine ⟨?_, fun hcontra _ => absurd hcontra (by simp), fun _ e3 he3 => ?_⟩
      · simp [retryApplyForceReplace, h1, deleteObject, h2, hdr, hres,
          handleApiWarnings, handleResult]
        cases b <;> simp [handleResult]
      · cases he3

/-- Witness for C9 at a concrete failing patch. -/
theorem force_replace_single_retry_witness :
    (retryApplyForceReplace envPatch422 oFR ApplyState.init x1 false (.other "e")).calls =
      [ApiCall.delete refA false, ApiCall.patch x1 false false] ∧
    (retryApplyForceReplace envPatch422 oFR ApplyState.init x1 false (.other "e")).errors =
      [(refA, Err.api (.other "422"))] := by
  have h := force_replace_single_retry envPatch422 oFR ApplyState.init x1 false
    (.other "e") rfl rfl
  refine ⟨?_, ?_⟩
  · have h1 := h.1
    simpa using h1
  · have h3 := (h.2.2 rfl (.other "422") rfl).1
    simpa using h3

end Kluctl

namespace KluctlVars

/-- C10: `LoadVars` never mutates the caller-supplied `VarsSource`: on every
path (including the error returns) the caller's cell is exactly the input,
and when the deep copy and rendering succeed the source-kind dispatch is
computed from the rendered deep copy of the input. -/
theorem load_vars_preserves_caller_source
    (dce : Option String) (tm : Except String Unit)
    (render : VarsSource → Except String VarsSource) (st : VarsStore) :
    (LoadVars dce tm render st).1.sourceIn = st.sourceIn ∧
    (LoadVars none (.ok ()) render st).2 =
      (match render st.sourceIn with
       | .error e => .error e
       | .ok r => .ok (selectVarsSource r (r.ignoreMissing.getD false))) := by
  constructor
  · cases dce with
    | some e => rfl
    | none =>
      cases tm with
      | error e => rfl
      | ok u =>
        cases hr : render st.sourceIn with
        | error e =>
          simp only [LoadVars, Option.getD_some]
          rw [hr]
        | ok rendered =>
          simp only [LoadVars, Option.getD_some]
          rw [hr]
  · cases hr : render st.sourceIn with
    | error e =>
      simp only [LoadVars, Option.getD_some]
      rw [hr]
    | ok rendered =>
      simp only [LoadVars, Option.getD_some]
      rw [hr]

end KluctlVars
